import Mathlib

/-!
Shallow embedding of the Game of Life engine from src/src/lib.rs
(wasm-game-of-life). Machine integers (u32/usize) are modeled as Nat:
every operation of the engine either keeps its intermediate values far
below 2^32 for any grid that fits in wasm32 memory, or would abort on
allocation before an arithmetic wrap could be observed, so overflow is
not a behaviour the claims can reach. A Rust index panic (slice/Vec
indexing out of bounds, or the chunk-size-zero assertion in Display)
is modeled as Option.none; total operations stay total.
-/

namespace Gol

/-- Cell from lib.rs: two-valued state, repr(u8) with Dead = 0, Alive = 1. -/
inductive Cell where
  | Dead : Cell
  | Alive : Cell
deriving Repr, DecidableEq

/-- The repr(u8) discriminant of a cell: the value added to the neighbour
count (`cell as u8` in live_neighbour_count). -/
def Cell.toU8 : Cell → Nat
  | Cell.Dead => 0
  | Cell.Alive => 1

/-- Cell.toggle from lib.rs: flips Dead to Alive and Alive to Dead. -/
def Cell.toggle : Cell → Cell
  | Cell.Dead => Cell.Alive
  | Cell.Alive => Cell.Dead

/-- Universe struct from lib.rs: width, height and a row-major cell buffer. -/
structure Universe where
  width : Nat
  height : Nat
  cells : List Cell
deriving Repr, DecidableEq

/-- The data-model invariant: cells.length = width * height. -/
def Universe.inv (u : Universe) : Prop :=
  u.cells.length = u.width * u.height

instance (u : Universe) : Decidable u.inv := by
  unfold Universe.inv; infer_instance

/-- Universe.get_index from lib.rs: 1D index for a 2D position,
row * width + column. -/
def Universe.get_index (u : Universe) (row column : Nat) : Nat :=
  row * u.width + column

/-- Reading self.cells[idx] where the surrounding code guarantees
idx < cells.len(); out-of-range reads (which would panic in Rust) are
mapped to Dead and never occur under the hypotheses of the theorems. -/
def Universe.cellAt (u : Universe) (idx : Nat) : Cell :=
  u.cells.getD idx Cell.Dead

/-- Universe.live_neighbour_count from lib.rs: fold over delta_row in
[height - 1, 0, 1] and delta_col in [width - 1, 0, 1], skipping the
pair whose values are (0, 0), of the u8 value of the cell at
((row + delta_row) % height, (column + delta_col) % width). -/
def Universe.live_neighbour_count (u : Universe) (row column : Nat) : Nat :=
  [u.height - 1, 0, 1].foldl (fun count delta_row =>
    [u.width - 1, 0, 1].foldl (fun count delta_col =>
      if delta_row = 0 ∧ delta_col = 0 then
        count
      else
        let neighbour_row := (row + delta_row) % u.height
        let neighbor_col := (column + delta_col) % u.width
        let idx := u.get_index neighbour_row neighbor_col
        count + (u.cellAt idx).toU8) count) 0

/-- The per-cell transition of Universe::tick (the match on
(cell, live_neighbours) in lib.rs), as an if-chain in source order. -/
def next_cell (cell : Cell) (live_neighbours : Nat) : Cell :=
  if cell = Cell.Alive ∧ live_neighbours < 2 then Cell.Dead
  else if cell = Cell.Alive ∧ (live_neighbours = 2 ∨ live_neighbours = 3) then Cell.Alive
  else if cell = Cell.Alive ∧ live_neighbours > 3 then Cell.Dead
  else if cell = Cell.Dead ∧ live_neighbours = 3 then Cell.Alive
  else cell

/-- The shared row-major write loop shape
`for row in 0..height { for col in 0..width { buf[row*width+col] = f row col } }`
used by tick, randomize and reset in lib.rs, starting from buffer l. -/
def writeGrid (w h : Nat) (f : Nat → Nat → Cell) (l : List Cell) : List Cell :=
  (List.range h).foldl (fun next row =>
    (List.range w).foldl (fun next col =>
      next.set (row * w + col) (f row col)) next) l

/-- Universe.tick from lib.rs: clones cells into a next buffer, then for
every (row, col) writes next_cell of the OLD cell state and the OLD
generation's live_neighbour_count, and finally replaces cells with next.
The Timer and commented-out logging are host-side instrumentation with no
effect on the state. -/
def Universe.tick (u : Universe) : Universe :=
  let next := writeGrid u.width u.height
    (fun row col =>
      let idx := u.get_index row col
      next_cell (u.cellAt idx) (u.live_neighbour_count row col)) u.cells
  { u with cells := next }

/-- Universe.toggle_cell from lib.rs: computes idx = get_index(row, column)
and toggles self.cells[idx] with no bounds check on row/column; the Vec
index panics (none) exactly when idx ≥ cells.len(). -/
def Universe.toggle_cell (u : Universe) (row column : Nat) : Option Universe :=
  let idx := u.get_index row column
  if idx < u.cells.length then
    some { u with cells := u.cells.set idx (u.cellAt idx).toggle }
  else
    none

/-- Universe.set_width from lib.rs: sets width and reallocates cells to
(0..width * self.height).map(|_| Dead), i.e. new_width * height Dead cells. -/
def Universe.set_width (u : Universe) (width : Nat) : Universe :=
  { u with width := width, cells := List.replicate (width * u.height) Cell.Dead }

/-- Universe.set_height from lib.rs: sets height and reallocates cells to
(0..self.width * height).map(|_| Dead), i.e. width * new_height Dead cells. -/
def Universe.set_height (u : Universe) (height : Nat) : Universe :=
  { u with height := height, cells := List.replicate (u.width * height) Cell.Dead }

/-- Universe.randomize from lib.rs: visits every (row, col) in row-major
order and stores a fresh draw from the injected random source at
cells[get_index(row, col)]; rand idx is the draw made for linear index
idx (the draws are made in index order, one per cell). -/
def Universe.randomize (u : Universe) (rand : Nat → Cell) : Universe :=
  let next := writeGrid u.width u.height
    (fun row col => rand (u.get_index row col)) u.cells
  { u with cells := next }

/-- Universe.reset from lib.rs: visits every (row, col) and stores Dead. -/
def Universe.reset (u : Universe) : Universe :=
  { u with cells := writeGrid u.width u.height (fun _ _ => Cell.Dead) u.cells }

/-- Universe.new from lib.rs: a 64 x 64 universe whose cells are
(0..width*height).map(|_| get_random_cell()); rand i is the i-th draw of
the injected random source (the panic hook and console log are host-side). -/
def Universe.new (rand : Nat → Cell) : Universe :=
  { width := 64, height := 64,
    cells := (List.range (64 * 64)).map (fun i => rand i) }

/-- Universe.set_cells from lib.rs: for each (row, col) in order, stores
Alive at cells[get_index(row, col)]; the Vec index panics (none) on the
first pair whose linear index is out of the buffer. -/
def Universe.set_cells (u : Universe) (coords : List (Nat × Nat)) : Option Universe :=
  (coords.foldlM (fun (cs : List Cell) (rc : Nat × Nat) =>
      let idx := u.get_index rc.1 rc.2
      if idx < cs.length then some (cs.set idx Cell.Alive) else none)
    u.cells).map (fun cs => { u with cells := cs })

/-- The glyph written by the Display impl in lib.rs for one cell
(a distinct printable symbol for Dead vs Alive). -/
def Cell.glyph (c : Cell) : Char :=
  if c = Cell.Dead then '◻' else '◼'

/-- Slice.chunks from the Rust standard library as used by Display:
successive sub-buffers of length n (the last may be shorter); calling it
with n = 0 asserts (the n = 0 branch here is unreachable from renderRows,
which models that assertion as none before chunking). -/
def chunksOf (n : Nat) (l : List Cell) : List (List Cell) :=
  if h : n = 0 then []
  else
    match l with
    | [] => []
    | x :: xs => (x :: xs).take n :: chunksOf n ((x :: xs).drop n)
termination_by l.length
decreasing_by
  simp only [List.length_drop, List.length_cons]
  omega

/-- The Display impl from lib.rs, up to glyph strings: chunks cells into
rows of length width and maps each cell to its glyph; chunks(0) panics
(none) when width = 0. -/
def Universe.renderRows (u : Universe) : Option (List (List Char)) :=
  if u.width = 0 then none
  else some ((chunksOf u.width u.cells).map (fun line => line.map Cell.glyph))

/-- Universe.render from lib.rs: the Display output as a string, each row
of glyphs followed by a line break. -/
def Universe.render (u : Universe) : Option String :=
  (u.renderRows).map (fun rows =>
    String.join (rows.map (fun line => String.mk line ++ "\n")))

/-! ### Arithmetic helpers for row-major indexing -/

theorem div_mod_of_between {a w j : Nat} (h1 : a * w ≤ j) (h2 : j < a * w + w) :
    j / w = a ∧ j % w = j - a * w := by
  have hw : 0 < w := by
    rcases Nat.eq_zero_or_pos w with hw0 | hw0
    · subst hw0; rw [Nat.mul_zero] at h1 h2; omega
    · exact hw0
  obtain ⟨r, hr⟩ : ∃ r, j = r + a * w := ⟨j - a * w, by omega⟩
  have hrw : r < w := by omega
  subst hr
  constructor
  · rw [Nat.add_mul_div_right _ _ hw, Nat.div_eq_of_lt hrw, Nat.zero_add]
  · rw [Nat.add_mul_mod_self_right, Nat.mod_eq_of_lt hrw]
    omega

theorem index_lt_of_lt {w hh r c : Nat} (hr : r < hh) (hc : c < w) :
    r * w + c < w * hh := by
  have h1 : (r + 1) * w ≤ hh * w := Nat.mul_le_mul_right w hr
  rw [Nat.succ_mul] at h1
  rw [Nat.mul_comm w hh]
  omega

theorem get_index_inj {w r c r2 c2 : Nat} (hc : c < w) (hc2 : c2 < w)
    (he : r * w + c = r2 * w + c2) : r = r2 ∧ c = c2 := by
  have h1 := div_mod_of_between (a := r) (w := w) (j := r * w + c)
    (by omega) (by omega)
  have h2 := div_mod_of_between (a := r2) (w := w) (j := r2 * w + c2)
    (by omega) (by omega)
  rw [he] at h1
  omega

/-! ### Characterization of the row-major write loop -/

theorem foldl_set_cols (w row : Nat) (f : Nat → Nat → Cell) :
    ∀ (n s : Nat) (l : List Cell), row * w + s + n ≤ l.length →
    ∀ j, ((List.range' s n).foldl
        (fun next col => next.set (row * w + col) (f row col)) l)[j]? =
      if row * w + s ≤ j ∧ j < row * w + s + n then some (f row (j - row * w))
      else l[j]? := by
  intro n
  induction n with
  | zero =>
    intro s l _ j
    rw [List.range', List.foldl_nil, if_neg (by omega)]
  | succ n ih =>
    intro s l hlen j
    rw [List.range'_succ, List.foldl_cons]
    rw [ih (s + 1) (l.set (row * w + s) (f row s)) (by simp [List.length_set]; omega) j]
    rw [List.getElem?_set]
    by_cases hij : row * w + s = j
    · subst hij
      rw [if_neg (by omega), if_pos (by omega), if_pos (by omega),
        if_pos (by omega)]
      have : row * w + s - row * w = s := by omega
      rw [this]
    · rw [if_neg hij]
      by_cases hin : row * w + (s + 1) ≤ j ∧ j < row * w + (s + 1) + n
      · rw [if_pos hin, if_pos (by omega)]
      · rw [if_neg hin, if_neg (by omega)]

theorem foldl_set_rows (w : Nat) (f : Nat → Nat → Cell) :
    ∀ (m a : Nat) (l : List Cell), a * w + m * w ≤ l.length →
    ∀ j, ((List.range' a m).foldl
        (fun next row => (List.range w).foldl
          (fun next col => next.set (row * w + col) (f row col)) next) l)[j]? =
      if a * w ≤ j ∧ j < a * w + m * w then some (f (j / w) (j % w))
      else l[j]? := by
  intro m
  induction m with
  | zero =>
    intro a l _ j
    rw [List.range', List.foldl_nil, if_neg (by omega)]
  | succ m ih =>
    intro a l hlen j
    rw [Nat.succ_mul] at hlen
    rw [List.range'_succ, List.foldl_cons]
    have hrow := foldl_set_cols w a f w 0 l (by omega) j
    rw [← List.range_eq_range'] at hrow
    set l1 := (List.range w).foldl
      (fun next col => next.set (a * w + col) (f a col)) l with hl1
    have hlen1 : l1.length = l.length := by
      rw [hl1]
      clear hrow hlen hl1
      induction (List.range w) generalizing l with
      | nil => rfl
      | cons x xs ihl => simp [List.foldl_cons, *, List.length_set]
    have hnext := ih (a + 1) l1 (by rw [hlen1]; rw [Nat.succ_mul]; omega) j
    rw [Nat.succ_mul] at hnext
    rw [hnext, hrow]
    rw [Nat.succ_mul]
    by_cases hc1 : a * w + w ≤ j ∧ j < a * w + w + m * w
    · rw [if_pos hc1, if_pos (by omega)]
    · rw [if_neg hc1]
      by_cases hc2 : a * w ≤ j ∧ j < a * w + w
      · rw [if_pos (by omega), if_pos (by omega)]
        have hd := div_mod_of_between (a := a) (w := w) (j := j)
          (by omega) (by omega)
        rw [hd.1, hd.2]
      · rw [if_neg (by omega), if_neg (by omega)]

theorem writeGrid_length (w hh : Nat) (f : Nat → Nat → Cell) (l : List Cell) :
    (writeGrid w hh f l).length = l.length := by
  unfold writeGrid
  induction (List.range hh) generalizing l with
  | nil => rfl
  | cons r rs ih =>
    rw [List.foldl_cons, ih]
    induction (List.range w) generalizing l with
    | nil => rfl
    | cons c cs ih2 => rw [List.foldl_cons, ih2, List.length_set]

theorem writeGrid_getElem? (w hh : Nat) (f : Nat → Nat → Cell) (l : List Cell)
    (hl : l.length = w * hh) (j : Nat) :
    (writeGrid w hh f l)[j]? =
      if j < w * hh then some (f (j / w) (j % w)) else l[j]? := by
  unfold writeGrid
  have hlr : 0 * w + hh * w ≤ l.length := by
    rw [hl]; rw [Nat.mul_comm w hh]; omega
  have hmain := foldl_set_rows w f hh 0 l hlr j
  rw [← List.range_eq_range'] at hmain
  rw [hmain, Nat.zero_mul, Nat.zero_add, Nat.mul_comm hh w]
  simp

theorem writeGrid_getD (w hh : Nat) (f : Nat → Nat → Cell) (l : List Cell)
    (hl : l.length = w * hh) (r c : Nat) (hr : r < hh) (hc : c < w) (d : Cell) :
    (writeGrid w hh f l).getD (r * w + c) d = f r c := by
  have hidx : r * w + c < w * hh := index_lt_of_lt hr hc
  rw [List.getD_eq_getElem?_getD, writeGrid_getElem? w hh f l hl, if_pos hidx]
  have hd := div_mod_of_between (a := r) (w := w) (j := r * w + c)
    (by omega) (by omega)
  rw [hd.1, hd.2]
  simp

/-! ### Per-operation facts -/

theorem tick_width (u : Universe) : u.tick.width = u.width := rfl

theorem tick_height (u : Universe) : u.tick.height = u.height := rfl

theorem tick_cellAt (u : Universe) (hu : u.inv) (r c : Nat)
    (hr : r < u.height) (hc : c < u.width) :
    u.tick.cellAt (u.get_index r c) =
      next_cell (u.cellAt (u.get_index r c)) (u.live_neighbour_count r c) := by
  simp only [Universe.tick, Universe.cellAt, Universe.get_index]
  rw [writeGrid_getD u.width u.height _ u.cells hu r c hr hc]

theorem tick_inv (u : Universe) (hu : u.inv) : u.tick.inv := by
  show (writeGrid u.width u.height _ u.cells).length = u.width * u.height
  rw [writeGrid_length]
  exact hu

theorem randomize_inv (u : Universe) (rand : Nat → Cell) (hu : u.inv) :
    (u.randomize rand).inv := by
  show (writeGrid u.width u.height _ u.cells).length = u.width * u.height
  rw [writeGrid_length]
  exact hu

theorem reset_inv (u : Universe) (hu : u.inv) : u.reset.inv := by
  show (writeGrid u.width u.height _ u.cells).length = u.width * u.height
  rw [writeGrid_length]
  exact hu

theorem new_inv (rand : Nat → Cell) : (Universe.new rand).inv := by
  unfold Universe.inv Universe.new
  rw [List.length_map, List.length_range]

theorem toggle_cell_inv (u : Universe) (r c : Nat) (u2 : Universe)
    (hu : u.inv) (h : u.toggle_cell r c = some u2) : u2.inv := by
  simp only [Universe.toggle_cell] at h
  split at h
  · cases h
    show (u.cells.set _ _).length = u.width * u.height
    rw [List.length_set]
    exact hu
  · cases h

theorem set_cells_go_length (u : Universe) :
    ∀ (coords : List (Nat × Nat)) (cs res : List Cell),
    coords.foldlM (fun (cs : List Cell) (rc : Nat × Nat) =>
        let idx := u.get_index rc.1 rc.2
        if idx < cs.length then some (cs.set idx Cell.Alive) else none) cs
      = some res → res.length = cs.length := by
  intro coords
  induction coords with
  | nil =>
    intro cs res h
    cases h
    rfl
  | cons rc rest ih =>
    intro cs res h
    rw [List.foldlM_cons] at h
    by_cases hidx : u.get_index rc.1 rc.2 < cs.length
    · simp only [hidx, if_pos] at h
      have := ih (cs.set (u.get_index rc.1 rc.2) Cell.Alive) res h
      rw [List.length_set] at this
      exact this
    · simp only [hidx, if_neg] at h
      cases h

theorem set_cells_inv (u : Universe) (coords : List (Nat × Nat)) (u2 : Universe)
    (hu : u.inv) (h : u.set_cells coords = some u2) : u2.inv := by
  unfold Universe.set_cells at h
  cases hres : coords.foldlM (fun (cs : List Cell) (rc : Nat × Nat) =>
      let idx := u.get_index rc.1 rc.2
      if idx < cs.length then some (cs.set idx Cell.Alive) else none) u.cells with
  | none => rw [hres] at h; cases h
  | some res =>
    rw [hres] at h
    cases h
    show res.length = u.width * u.height
    rw [set_cells_go_length u coords u.cells res hres]
    exact hu

theorem set_width_inv (u : Universe) (w2 : Nat) : (u.set_width w2).inv := by
  show (List.replicate (w2 * u.height) Cell.Dead).length = w2 * u.height
  rw [List.length_replicate]

theorem set_height_inv (u : Universe) (h2 : Nat) : (u.set_height h2).inv := by
  show (List.replicate (u.width * h2) Cell.Dead).length = u.width * h2
  rw [List.length_replicate]

/-! ### Spec-side Moore-neighborhood count (for the refinement claim C2) -/

/-- The 8 Moore-neighborhood offsets (the (0,0) delta excluded). -/
def mooreDeltas : List (Int × Int) :=
  [(-1, -1), (-1, 0), (-1, 1), (0, -1), (0, 1), (1, -1), (1, 0), (1, 1)]

/-- Stated from the spec's words, for comparison with the code's
live_neighbour_count: for the 8 torus-adjacent cells (Moore neighborhood,
wraparound on both axes), sum 1 for each that is Alive. -/
def specMooreLiveCount (u : Universe) (row col : Nat) : Nat :=
  (mooreDeltas.map (fun d =>
    (u.cellAt (u.get_index ((((row : Int) + d.1) % (u.height : Int)).toNat)
      ((((col : Int) + d.2) % (u.width : Int)).toNat))).toU8)).sum

/-- The unsigned wraparound decrement (i + (n - 1)) % n agrees with the
signed (i - 1) mod n. -/
theorem wrap_sub_one {n i : Nat} (hi : i < n) :
    (((i : Int) - 1) % (n : Int)).toNat = (i + (n - 1)) % n := by
  rcases Nat.eq_zero_or_pos i with h0 | h0
  · subst h0
    rw [Nat.zero_add, Nat.mod_eq_of_lt (by omega), Nat.cast_zero]
    have h1 : ((0 : Int) - 1) % (n : Int) = (-1 + (n : Int) * 1) % (n : Int) := by
      have he : ((0 : Int) - 1) = -1 := by ring
      have he2 : (-1 + (n : Int) * 1) % (n : Int) = (-1) % (n : Int) :=
        Int.add_mul_emod_self_left (-1) (n : Int) 1
      rw [he, he2]
    have h2 : (-1 + (n : Int) * 1) = (n : Int) - 1 := by ring
    rw [h1, h2, Int.emod_eq_of_lt (by omega) (by omega)]
    omega
  · have he : i + (n - 1) = (i - 1) + n := by omega
    rw [he, Nat.add_mod_right, Nat.mod_eq_of_lt (by omega)]
    rw [Int.emod_eq_of_lt (by omega) (by omega)]
    omega

/-- The wraparound increment agrees between Nat and Int arithmetic. -/
theorem wrap_add_one {n i : Nat} :
    (((i : Int) + 1) % (n : Int)).toNat = (i + 1) % n := by
  have h1 : ((i : Int) + 1) = ((i + 1 : Nat) : Int) := by push_cast; ring
  rw [h1, ← Int.ofNat_emod, Int.toNat_natCast]

/-- The identity row/column delta agrees between Nat and Int arithmetic. -/
theorem wrap_zero {n i : Nat} (hi : i < n) :
    (((i : Int) + 0) % (n : Int)).toNat = i := by
  rw [Int.add_zero, Int.emod_eq_of_lt (by omega) (by omega), Int.toNat_natCast]

/-- Every cell discriminant is at most 1. -/
theorem cell_toU8_le (c : Cell) : c.toU8 ≤ 1 := by
  cases c <;> simp [Cell.toU8]

/-! ### Concrete universes used by witnesses and counterexamples -/

/-- A 5 x 5 universe with a horizontal blinker on row 2, columns 1..3. -/
def exBlinkH : Universe :=
  { width := 5, height := 5,
    cells := (List.range 25).map
      (fun i => if i = 11 ∨ i = 12 ∨ i = 13 then Cell.Alive else Cell.Dead) }

/-- A 5 x 5 universe with a vertical blinker on column 2, rows 1..3. -/
def exBlinkV : Universe :=
  { width := 5, height := 5,
    cells := (List.range 25).map
      (fun i => if i = 7 ∨ i = 12 ∨ i = 17 then Cell.Alive else Cell.Dead) }

/-- A 2 x 2 all-Dead universe. -/
def exDead2 : Universe :=
  { width := 2, height := 2,
    cells := [Cell.Dead, Cell.Dead, Cell.Dead, Cell.Dead] }

/-- A 1 x 1 universe whose single cell is Alive. -/
def exOne : Universe := { width := 1, height := 1, cells := [Cell.Alive] }

/-- A degenerate zero-width universe with nonzero height. -/
def exZeroW : Universe := { width := 0, height := 2, cells := [] }

/-! ### Claims -/

/-- C1: for every Universe and every cell at (row, column) with current
state s and live-neighbour count n computed on the pre-tick generation,
after tick() the cell's state follows the classic Life rule (Dead on
underpopulation or overpopulation, Alive on survival or reproduction,
unchanged otherwise); the count n is always the one taken against the old
generation. -/
theorem tick_applies_classic_rule_to_pre_tick_counts
    (u : Universe) (row col : Nat) (hu : u.inv)
    (hr : row < u.height) (hc : col < u.width) :
    (u.cellAt (u.get_index row col) = Cell.Alive ∧
        u.live_neighbour_count row col < 2 →
      u.tick.cellAt (u.get_index row col) = Cell.Dead) ∧
    (u.cellAt (u.get_index row col) = Cell.Alive ∧
        (u.live_neighbour_count row col = 2 ∨ u.live_neighbour_count row col = 3) →
      u.tick.cellAt (u.get_index row col) = Cell.Alive) ∧
    (u.cellAt (u.get_index row col) = Cell.Alive ∧
        3 < u.live_neighbour_count row col →
      u.tick.cellAt (u.get_index row col) = Cell.Dead) ∧
    (u.cellAt (u.get_index row col) = Cell.Dead ∧
        u.live_neighbour_count row col = 3 →
      u.tick.cellAt (u.get_index row col) = Cell.Alive) ∧
    (u.cellAt (u.get_index row col) = Cell.Dead ∧
        u.live_neighbour_count row col ≠ 3 →
      u.tick.cellAt (u.get_index row col) = u.cellAt (u.get_index row col)) := by
  rw [tick_cellAt u hu row col hr hc]
  unfold next_cell
  refine ⟨?_, ?_, ?_, ?_, ?_⟩
  · rintro ⟨hs, hn⟩
    rw [if_pos ⟨hs, hn⟩]
  · rintro ⟨hs, hn⟩
    rw [if_neg (by rintro ⟨-, h2⟩; omega), if_pos ⟨hs, hn⟩]
  · rintro ⟨hs, hn⟩
    rw [if_neg (by rintro ⟨-, h2⟩; omega),
      if_neg (by rintro ⟨-, h2⟩; omega), if_pos ⟨hs, hn⟩]
  · rintro ⟨hs, hn⟩
    rw [if_neg (by rintro ⟨h1, -⟩; rw [hs] at h1; cases h1),
      if_neg (by rintro ⟨h1, -⟩; rw [hs] at h1; cases h1),
      if_neg (by rintro ⟨h1, -⟩; rw [hs] at h1; cases h1),
      if_pos ⟨hs, hn⟩]
  · rintro ⟨hs, hn⟩
    rw [if_neg (by rintro ⟨h1, -⟩; rw [hs] at h1; cases h1),
      if_neg (by rintro ⟨h1, -⟩; rw [hs] at h1; cases h1),
      if_neg (by rintro ⟨h1, -⟩; rw [hs] at h1; cases h1),
      if_neg (by rintro ⟨-, h2⟩; omega)]

/-- Witness for C1: in the concrete 5 x 5 blinker universe, the Dead cell
at (1, 2) has exactly 3 live neighbours before the tick and is Alive after
it. -/
theorem tick_applies_classic_rule_to_pre_tick_counts_witness :
    exBlinkH.tick.cellAt (exBlinkH.get_index 1 2) = Cell.Alive :=
  (tick_applies_classic_rule_to_pre_tick_counts exBlinkH 1 2
    (by decide) (by decide) (by decide)).2.2.2.1 ⟨by decide, by decide⟩

/-- Toggling a cell twice yields the original cell. -/
theorem toggle_toggle (a : Cell) : a.toggle.toggle = a := by
  cases a <;> rfl

/-- Writing back the value already stored at an in-range index is the
identity on the buffer. -/
theorem set_getD_self {l : List Cell} {i : Nat} (hi : i < l.length) (d : Cell) :
    l.set i (l.getD i d) = l := by
  apply List.ext_getElem?
  intro j
  rw [List.getElem?_set]
  by_cases hij : i = j
  · subst hij
    rw [if_pos rfl, if_pos hi, List.getD_eq_getElem l d hi, List.getElem?_eq_getElem hi]
  · rw [if_neg hij]

/-- C4 counterexample: on a 2 x 2 all-Dead universe, toggle_cell(0, 2) has
column 2 ≥ width 2, yet it does not fail: it silently toggles the aliased
linear index 2, i.e. the cell at (1, 0). -/
theorem toggle_cell_succeeds_out_of_range_cex :
    exDead2.width = 2 ∧
    exDead2.toggle_cell 0 2 =
      some { width := 2, height := 2,
             cells := [Cell.Dead, Cell.Dead, Cell.Alive, Cell.Dead] } := by
  decide

/-- C4 amended: toggle_cell performs no row/column bounds check; it fails
(an index panic, modeled as none, with no mutation applied) exactly when
the linear index row * width + column is outside the cell buffer, and it
always succeeds on in-range arguments (row < height, column < width, for
a Universe satisfying the length invariant). -/
theorem toggle_cell_checked_on_linear_index (u : Universe) (r c : Nat) :
    (u.toggle_cell r c = none ↔ u.cells.length ≤ u.get_index r c) ∧
    (u.inv → r < u.height → c < u.width →
      ∃ u2, u.toggle_cell r c = some u2) := by
  constructor
  · simp only [Universe.toggle_cell]
    split <;> simp <;> omega
  · intro hu hr hc
    have hidx : u.get_index r c < u.cells.length := by
      rw [hu]
      exact index_lt_of_lt hr hc
    have hsome : (u.toggle_cell r c).isSome := by
      simp [Universe.toggle_cell, hidx]
    exact Option.isSome_iff_exists.mp hsome

/-- Witness for C4 (amended): on the 2 x 2 all-Dead universe the in-range
toggle at (0, 1) succeeds. -/
theorem toggle_cell_checked_on_linear_index_witness :
    ∃ u2, exDead2.toggle_cell 0 1 = some u2 :=
  (toggle_cell_checked_on_linear_index exDead2 0 1).2
    (by decide) (by decide) (by decide)

/-- Shape of a successful toggle_cell. -/
theorem toggle_cell_eq_some (u : Universe) (r c : Nat)
    (hidx : u.get_index r c < u.cells.length) :
    u.toggle_cell r c = some { u with cells := u.cells.set (u.get_index r c) ((u.cellAt (u.get_index r c)).toggle) } := by
  simp [Universe.toggle_cell, hidx]

/-- C7: for every Universe and every in-range (r, c), toggle_cell succeeds,
flips exactly the addressed cell, leaves every other in-range cell
unchanged, and toggling a second time returns exactly the original
universe. -/
theorem toggle_cell_self_inverse (u : Universe) (r c : Nat) (hu : u.inv)
    (hr : r < u.height) (hc : c < u.width) :
    ∃ u2, u.toggle_cell r c = some u2 ∧
      u2.width = u.width ∧ u2.height = u.height ∧
      u2.cellAt (u.get_index r c) = (u.cellAt (u.get_index r c)).toggle ∧
      (∀ r2 c2, r2 < u.height → c2 < u.width → (r2, c2) ≠ (r, c) →
        u2.cellAt (u.get_index r2 c2) = u.cellAt (u.get_index r2 c2)) ∧
      u2.toggle_cell r c = some u := by
  have hidx : u.get_index r c < u.cells.length := by
    rw [hu]
    exact index_lt_of_lt hr hc
  refine ⟨{ u with cells := u.cells.set (u.get_index r c) ((u.cellAt (u.get_index r c)).toggle) }, by simp [Universe.toggle_cell, hidx], rfl, rfl, ?_, ?_, ?_⟩
  · show (u.cells.set _ _).getD _ Cell.Dead = _
    rw [List.getD_eq_getElem?_getD, List.getElem?_set_self hidx]
    rfl
  · intro r2 c2 hr2 hc2 hne
    show (u.cells.set _ _).getD _ Cell.Dead = u.cells.getD _ Cell.Dead
    rw [List.getD_eq_getElem?_getD, List.getElem?_set_ne, ← List.getD_eq_getElem?_getD]
    intro heq
    have hii := get_index_inj hc hc2 heq
    exact hne (by rw [hii.1, hii.2])
  · set t := (u.cellAt (u.get_index r c)).toggle with ht
    set v : Universe := { u with cells := u.cells.set (u.get_index r c) t } with hv
    have hvidx : v.get_index r c < v.cells.length := by
      show u.get_index r c < (u.cells.set (u.get_index r c) t).length
      rw [List.length_set]
      exact hidx
    rw [toggle_cell_eq_some v r c hvidx]
    have hvc : v.cellAt (v.get_index r c) = t := by
      show (u.cells.set (u.get_index r c) t).getD (u.get_index r c) Cell.Dead = t
      rw [List.getD_eq_getElem?_getD, List.getElem?_set_self hidx]
      rfl
    rw [hvc, ht, toggle_toggle]
    show some { u with cells := (u.cells.set (u.get_index r c) t).set (u.get_index r c) (u.cellAt (u.get_index r c)) } = some u
    rw [List.set_set]
    show some { u with cells := u.cells.set (u.get_index r c) (u.cells.getD (u.get_index r c) Cell.Dead) } = some u
    rw [set_getD_self hidx]

/-- Witness for C7: double-toggling (2, 1) on the 5 x 5 blinker universe
returns the original universe. -/
theorem toggle_cell_self_inverse_witness :
    ∃ u2, exBlinkH.toggle_cell 2 1 = some u2 ∧
      u2.width = exBlinkH.width ∧ u2.height = exBlinkH.height ∧
      u2.cellAt (exBlinkH.get_index 2 1) = (exBlinkH.cellAt (exBlinkH.get_index 2 1)).toggle ∧
      (∀ r2 c2, r2 < exBlinkH.height → c2 < exBlinkH.width → (r2, c2) ≠ (2, 1) →
        u2.cellAt (exBlinkH.get_index r2 c2) = exBlinkH.cellAt (exBlinkH.get_index r2 c2)) ∧
      u2.toggle_cell 2 1 = some exBlinkH :=
  toggle_cell_self_inverse exBlinkH 2 1 (by decide) (by decide) (by decide)

/-- C2 counterexample: on the 1 x 1 universe whose single cell is Alive
(width ≥ 1 and height ≥ 1, as the claim allows), the code's
live_neighbour_count at (0, 0) is 5, while the number of Alive cells among
the 8 torus-adjacent Moore neighbors is 8: the code's value-based skip of
the (0, 0) delta drops extra delta pairs once height - 1 or width - 1
wraps to 0, so the two counts disagree. -/
theorem live_neighbour_count_not_moore_on_one_by_one_cex :
    exOne.live_neighbour_count 0 0 = 5 ∧ specMooreLiveCount exOne 0 0 = 8 := by
  decide

/-- C2 amended: for every Universe with width ≥ 2 and height ≥ 2 and every
in-range (row, column), live_neighbour_count returns a value in [0, 8]
equal to the number of Alive cells among the 8 torus-adjacent Moore
neighbors, computed with the (row + height - 1) % height, row,
(row + 1) % height deltas and symmetrically for columns, excluding the
(0,0) delta; in particular at row/column 0 and height-1/width-1. -/
theorem live_neighbour_count_eq_moore (u : Universe) (row col : Nat)
    (hw : 2 ≤ u.width) (hh : 2 ≤ u.height)
    (hr : row < u.height) (hc : col < u.width) :
    u.live_neighbour_count row col ≤ 8 ∧
    u.live_neighbour_count row col = specMooreLiveCount u row col := by
  have hh0 : ¬(u.height - 1 = 0) := by omega
  have hw0 : ¬(u.width - 1 = 0) := by omega
  have hrow : row % u.height = row := Nat.mod_eq_of_lt hr
  have hcol : col % u.width = col := Nat.mod_eq_of_lt hc
  have e1 : ((row : Int) + (-1)) = (row : Int) - 1 := by ring
  have e2 : ((col : Int) + (-1)) = (col : Int) - 1 := by ring
  have hrm := wrap_sub_one (n := u.height) (i := row) hr
  have hcm := wrap_sub_one (n := u.width) (i := col) hc
  have hrp := wrap_add_one (n := u.height) (i := row)
  have hcp := wrap_add_one (n := u.width) (i := col)
  have hr0 : ((row : Int) % (u.height : Int)).toNat = row := by
    rw [Int.emod_eq_of_lt (by omega) (by omega), Int.toNat_natCast]
  have hc0 : ((col : Int) % (u.width : Int)).toNat = col := by
    rw [Int.emod_eq_of_lt (by omega) (by omega), Int.toNat_natCast]
  have b1 := cell_toU8_le (u.cellAt (u.get_index ((row + (u.height - 1)) % u.height) ((col + (u.width - 1)) % u.width)))
  have b2 := cell_toU8_le (u.cellAt (u.get_index ((row + (u.height - 1)) % u.height) col))
  have b3 := cell_toU8_le (u.cellAt (u.get_index ((row + (u.height - 1)) % u.height) ((col + 1) % u.width)))
  have b4 := cell_toU8_le (u.cellAt (u.get_index row ((col + (u.width - 1)) % u.width)))
  have b5 := cell_toU8_le (u.cellAt (u.get_index row ((col + 1) % u.width)))
  have b6 := cell_toU8_le (u.cellAt (u.get_index ((row + 1) % u.height) ((col + (u.width - 1)) % u.width)))
  have b7 := cell_toU8_le (u.cellAt (u.get_index ((row + 1) % u.height) col))
  have b8 := cell_toU8_le (u.cellAt (u.get_index ((row + 1) % u.height) ((col + 1) % u.width)))
  simp [Universe.live_neighbour_count, specMooreLiveCount, mooreDeltas,
    hh0, hw0, hrow, hcol, e1, e2, hrm, hcm, hrp, hcp, hr0, hc0]
  constructor
  · omega
  · omega

/-- Witness for C2 (amended): the corner cell (0, 0) of the 5 x 5 blinker
universe, where the torus wraparound is exercised on both axes. -/
theorem live_neighbour_count_eq_moore_witness :
    exBlinkH.live_neighbour_count 0 0 ≤ 8 ∧
    exBlinkH.live_neighbour_count 0 0 = specMooreLiveCount exBlinkH 0 0 :=
  live_neighbour_count_eq_moore exBlinkH 0 0
    (by decide) (by decide) (by decide) (by decide)

/-- C3: the invariant cells.length = width * height holds after
construction and is preserved by tick, toggle_cell (when it returns),
randomize, reset, set_cells (when it returns), set_width and set_height;
set_width and set_height reallocate the buffer to the new product of the
dimensions. -/
theorem invariant_cells_length_eq_width_mul_height :
    (∀ rand, (Universe.new rand).inv) ∧
    (∀ u : Universe, u.inv → u.tick.inv) ∧
    (∀ (u : Universe) r c u2, u.inv → u.toggle_cell r c = some u2 → u2.inv) ∧
    (∀ (u : Universe) rand, u.inv → (u.randomize rand).inv) ∧
    (∀ u : Universe, u.inv → u.reset.inv) ∧
    (∀ (u : Universe) coords u2, u.inv → u.set_cells coords = some u2 → u2.inv) ∧
    (∀ (u : Universe) w2, (u.set_width w2).inv ∧
      (u.set_width w2).cells.length = w2 * u.height) ∧
    (∀ (u : Universe) h2, (u.set_height h2).inv ∧
      (u.set_height h2).cells.length = u.width * h2) := by
  refine ⟨new_inv, tick_inv, ?_, ?_, reset_inv, ?_, ?_, ?_⟩
  · intro u r c u2 hu h
    exact toggle_cell_inv u r c u2 hu h
  · intro u rand hu
    exact randomize_inv u rand hu
  · intro u coords u2 hu h
    exact set_cells_inv u coords u2 hu h
  · intro u w2
    exact ⟨set_width_inv u w2, by
      show (List.replicate (w2 * u.height) Cell.Dead).length = w2 * u.height
      rw [List.length_replicate]⟩
  · intro u h2
    exact ⟨set_height_inv u h2, by
      show (List.replicate (u.width * h2) Cell.Dead).length = u.width * h2
      rw [List.length_replicate]⟩

/-- Witness for C3: the invariant after a concrete tick and a concrete
successful toggle on the 5 x 5 blinker universe. -/
theorem invariant_cells_length_eq_width_mul_height_witness :
    exBlinkH.tick.inv ∧
    (∀ u2, exBlinkH.toggle_cell 0 0 = some u2 → u2.inv) :=
  ⟨invariant_cells_length_eq_width_mul_height.2.1 exBlinkH (by decide),
   fun u2 h => invariant_cells_length_eq_width_mul_height.2.2.1 exBlinkH 0 0 u2
     (by decide) h⟩

/-- C5: set_width(w) and set_height(h) yield a grid in which every cell is
Dead and whose buffer length is the new product of the dimensions; no cell
content survives the resize. -/
theorem resize_clears_and_reallocates (u : Universe) (w2 h2 : Nat) :
    ((u.set_width w2).cells.length = w2 * u.height ∧
      ∀ cell ∈ (u.set_width w2).cells, cell = Cell.Dead) ∧
    ((u.set_height h2).cells.length = u.width * h2 ∧
      ∀ cell ∈ (u.set_height h2).cells, cell = Cell.Dead) := by
  refine ⟨⟨?_, ?_⟩, ?_, ?_⟩
  · show (List.replicate (w2 * u.height) Cell.Dead).length = w2 * u.height
    rw [List.length_replicate]
  · intro cell hcell
    exact List.eq_of_mem_replicate hcell
  · show (List.replicate (u.width * h2) Cell.Dead).length = u.width * h2
    rw [List.length_replicate]
  · intro cell hcell
    exact List.eq_of_mem_replicate hcell

/-- Witness for C5: resizing the live 5 x 5 blinker universe to width 3
gives a 15-cell buffer whose first cell (and every other) is Dead. -/
theorem resize_clears_and_reallocates_witness :
    (exBlinkH.set_width 3).cells.length = 3 * exBlinkH.height ∧
    (exBlinkH.set_width 3).cells.getD 0 Cell.Alive = Cell.Dead :=
  ⟨(resize_clears_and_reallocates exBlinkH 3 4).1.1,
   by
    have h := (resize_clears_and_reallocates exBlinkH 3 4).1.2
    have hmem : (exBlinkH.set_width 3).cells.getD 0 Cell.Alive ∈
        (exBlinkH.set_width 3).cells := by decide
    exact h _ hmem⟩

/-- Pointwise characterization of the set_cells write loop: every linear
index addressed by some coordinate pair holds Alive afterwards, every
other index is untouched, and the loop succeeds when all addressed
indices are inside the buffer. -/
theorem set_cells_go_spec (u : Universe) :
    ∀ (coords : List (Nat × Nat)) (cs : List Cell),
    (∀ rc ∈ coords, u.get_index rc.1 rc.2 < cs.length) →
    ∃ res, (coords.foldlM (fun (cs : List Cell) (rc : Nat × Nat) =>
        let idx := u.get_index rc.1 rc.2
        if idx < cs.length then some (cs.set idx Cell.Alive) else none) cs) = some res ∧
      res.length = cs.length ∧
      ∀ j, res[j]? = if ∃ rc ∈ coords, j = u.get_index rc.1 rc.2
        then some Cell.Alive else cs[j]? := by
  intro coords
  induction coords with
  | nil =>
    intro cs _
    refine ⟨cs, rfl, rfl, ?_⟩
    intro j
    rw [if_neg (by rintro ⟨rc, hmem, -⟩; cases hmem)]
  | cons rc rest ih =>
    intro cs hlen
    have hidx : u.get_index rc.1 rc.2 < cs.length :=
      hlen rc (List.mem_cons_self rc rest)
    have hlen2 : ∀ rc2 ∈ rest, u.get_index rc2.1 rc2.2 <
        (cs.set (u.get_index rc.1 rc.2) Cell.Alive).length := by
      intro rc2 hmem
      rw [List.length_set]
      exact hlen rc2 (List.mem_cons_of_mem rc hmem)
    obtain ⟨res, hres, hreslen, hj⟩ := ih (cs.set (u.get_index rc.1 rc.2) Cell.Alive) hlen2
    refine ⟨res, ?_, ?_, ?_⟩
    · rw [List.foldlM_cons]
      simp only [hidx, if_pos]
      exact hres
    · rw [hreslen, List.length_set]
    · intro j
      by_cases h1 : ∃ rc2 ∈ rest, j = u.get_index rc2.1 rc2.2
      · rw [hj j, if_pos h1, if_pos ?side]
        case side =>
          obtain ⟨rc2, hmem, hjeq⟩ := h1
          exact ⟨rc2, List.mem_cons_of_mem rc hmem, hjeq⟩
      · rw [hj j, if_neg h1]
        by_cases h2 : j = u.get_index rc.1 rc.2
        · subst h2
          rw [if_pos ⟨rc, List.mem_cons_self rc rest, rfl⟩,
            List.getElem?_set_self hidx]
        · rw [if_neg ?neg, List.getElem?_set_ne (fun he => h2 he.symm)]
          case neg =>
            rintro ⟨rc2, hmem, hjeq⟩
            rcases List.mem_cons.mp hmem with he | hmem2
            · exact h2 (by rw [hjeq, he])
            · exact h1 ⟨rc2, hmem2, hjeq⟩

/-- C6: for every Universe and every list of in-range coordinate pairs,
set_cells succeeds, sets exactly the addressed cells to Alive, leaves
every other cell at its prior value, and applying it a second time with
the same list returns the same universe (idempotence). -/
theorem set_cells_exact_and_idempotent (u : Universe) (coords : List (Nat × Nat))
    (hu : u.inv) (hin : ∀ rc ∈ coords, rc.1 < u.height ∧ rc.2 < u.width) :
    ∃ u2, u.set_cells coords = some u2 ∧
      u2.width = u.width ∧ u2.height = u.height ∧
      u2.cells.length = u.cells.length ∧
      (∀ rc ∈ coords, u2.cellAt (u.get_index rc.1 rc.2) = Cell.Alive) ∧
      (∀ j < u.cells.length, (∀ rc ∈ coords, j ≠ u.get_index rc.1 rc.2) →
        u2.cellAt j = u.cellAt j) ∧
      u2.set_cells coords = some u2 := by
  have hlen : ∀ rc ∈ coords, u.get_index rc.1 rc.2 < u.cells.length := by
    intro rc hmem
    rw [hu]
    exact index_lt_of_lt (hin rc hmem).1 (hin rc hmem).2
  obtain ⟨res, hres, hreslen, hj⟩ := set_cells_go_spec u coords u.cells hlen
  refine ⟨{ u with cells := res }, ?_, rfl, rfl, hreslen, ?_, ?_, ?_⟩
  · simp only [Universe.set_cells, hres]
    rfl
  · intro rc hmem
    show res.getD (u.get_index rc.1 rc.2) Cell.Dead = Cell.Alive
    rw [List.getD_eq_getElem?_getD, hj _, if_pos ⟨rc, hmem, rfl⟩]
    rfl
  · intro j hjlt hnot
    show res.getD j Cell.Dead = u.cells.getD j Cell.Dead
    rw [List.getD_eq_getElem?_getD, hj j,
      if_neg (by rintro ⟨rc, hmem, hje⟩; exact hnot rc hmem hje),
      ← List.getD_eq_getElem?_getD]
  · have hlen2 : ∀ rc ∈ coords, ({ u with cells := res } : Universe).get_index rc.1 rc.2 < res.length := by
      intro rc hmem
      show u.get_index rc.1 rc.2 < res.length
      rw [hreslen]
      exact hlen rc hmem
    obtain ⟨res2, hres2, hreslen2, hj2⟩ :=
      set_cells_go_spec { u with cells := res } coords res hlen2
    have hr2r : res2 = res := by
      apply List.ext_getElem?
      intro j
      rw [hj2 j]
      by_cases hcond : ∃ rc ∈ coords, j = ({ u with cells := res } : Universe).get_index rc.1 rc.2
      · rw [if_pos hcond, hj j, if_pos (by
          obtain ⟨rc, hmem, hje⟩ := hcond
          exact ⟨rc, hmem, hje⟩)]
      · rw [if_neg hcond]
    rw [hr2r] at hres2
    simp only [Universe.set_cells, hres2]
    rfl

/-- Witness for C6: seeding the 2 x 2 dead universe with cells (0, 1) and
(1, 0). -/
theorem set_cells_exact_and_idempotent_witness :
    ∃ u2, exDead2.set_cells [(0, 1), (1, 0)] = some u2 ∧
      u2.width = exDead2.width ∧ u2.height = exDead2.height ∧
      u2.cells.length = exDead2.cells.length ∧
      (∀ rc ∈ [((0 : Nat), (1 : Nat)), (1, 0)],
        u2.cellAt (exDead2.get_index rc.1 rc.2) = Cell.Alive) ∧
      (∀ j < exDead2.cells.length,
        (∀ rc ∈ [((0 : Nat), (1 : Nat)), (1, 0)], j ≠ exDead2.get_index rc.1 rc.2) →
        u2.cellAt j = exDead2.cellAt j) ∧
      u2.set_cells [(0, 1), (1, 0)] = some u2 :=
  set_cells_exact_and_idempotent exDead2 [(0, 1), (1, 0)] (by decide) (by decide)

/-! ### Rendering -/

theorem chunksOf_nil (w : Nat) : chunksOf w ([] : List Cell) = [] := by
  unfold chunksOf
  split <;> rfl

theorem chunksOf_cons (w : Nat) (hw : w ≠ 0) (x : Cell) (xs : List Cell) :
    chunksOf w (x :: xs) = (x :: xs).take w :: chunksOf w ((x :: xs).drop w) := by
  rw [chunksOf]
  rw [dif_neg hw]

/-- Chunking a buffer of length w * hh with nonzero chunk size w yields
exactly the hh rows of the row-major layout. -/
theorem chunksOf_eq_map_range (w : Nat) (hw : 0 < w) :
    ∀ (hh : Nat) (l : List Cell), l.length = w * hh →
    chunksOf w l = (List.range hh).map (fun r => (l.drop (r * w)).take w) := by
  intro hh
  induction hh with
  | zero =>
    intro l hl
    have h0 : l = [] := List.eq_nil_of_length_eq_zero (by rw [hl, Nat.mul_zero])
    subst h0
    rw [chunksOf_nil, List.range_zero, List.map_nil]
  | succ n ih =>
    intro l hl
    rcases l with _ | ⟨x, xs⟩
    · rw [List.length_nil, Nat.mul_succ] at hl
      omega
    · rw [chunksOf_cons w (by omega) x xs]
      have hdl : ((x :: xs).drop w).length = w * n := by
        rw [List.length_drop, hl, Nat.mul_succ]
        omega
      rw [ih _ hdl, List.range_succ_eq_map, List.map_cons, List.map_map]
      rw [Nat.zero_mul, List.drop_zero]
      congr 1
      apply List.map_congr_left
      intro r hr
      show (((x :: xs).drop w).drop (r * w)).take w = ((x :: xs).drop (Nat.succ r * w)).take w
      rw [List.drop_drop, Nat.succ_mul, Nat.add_comm (r * w) w]

/-- C8 counterexample: the zero-width universe with height 2 satisfies the
data-model invariant, but render() does not produce its height worth of
lines: the Display chunking asserts on chunk size 0 (modeled as none), so
the claim fails for this Universe even though it quantifies over every
Universe. -/
theorem render_not_total_on_zero_width_cex :
    exZeroW.inv ∧ exZeroW.render = none ∧
    ¬ ∃ rows, exZeroW.renderRows = some rows := by
  refine ⟨by decide, by decide, ?_⟩
  rintro ⟨rows, hrows⟩
  simp [Universe.renderRows, exZeroW] at hrows

/-- C8 amended: for every Universe with width ≥ 1 (satisfying the length
invariant), render() is a pure function of the state producing exactly
height lines, each of length width, with the Alive glyph appearing
precisely at the positions of Alive cells and the Dead glyph elsewhere. -/
theorem render_is_row_major_glyph_grid (u : Universe) (hu : u.inv) (hw : 1 ≤ u.width) :
    ∃ rows, u.renderRows = some rows ∧
      u.render = some (String.join (rows.map (fun line => String.mk line ++ "\n"))) ∧
      rows.length = u.height ∧
      (∀ line ∈ rows, line.length = u.width) ∧
      (∀ r c, r < u.height → c < u.width →
        (rows.getD r []).getD c ' ' = Cell.glyph (u.cellAt (u.get_index r c))) ∧
      (∀ r c, r < u.height → c < u.width →
        ((rows.getD r []).getD c ' ' = '◼' ↔ u.cellAt (u.get_index r c) = Cell.Alive)) := by
  have hw0 : u.width ≠ 0 := by omega
  have hch := chunksOf_eq_map_range u.width (by omega) u.height u.cells hu
  have hcomm : u.width * u.height = u.height * u.width := Nat.mul_comm _ _
  have hglyph : ∀ r c, r < u.height → c < u.width →
      (((chunksOf u.width u.cells).map (fun line => line.map Cell.glyph)).getD r []).getD c ' ' =
        Cell.glyph (u.cellAt (u.get_index r c)) := by
    intro r c hr hc
    have h1 := Nat.mul_le_mul_right u.width (show r + 1 ≤ u.height from hr)
    rw [Nat.succ_mul] at h1
    have hidx : u.get_index r c < u.cells.length := by
      rw [hu]
      exact index_lt_of_lt hr hc
    have hrows : ((chunksOf u.width u.cells).map (fun line => line.map Cell.glyph)).getD r [] =
        ((u.cells.drop (r * u.width)).take u.width).map Cell.glyph := by
      rw [hch, List.map_map, List.getD_eq_getElem?_getD, List.getElem?_map,
        List.getElem?_range hr]
      rfl
    rw [hrows]
    have hclen : c < (((u.cells.drop (r * u.width)).take u.width).map Cell.glyph).length := by
      rw [List.length_map, List.length_take, List.length_drop, hu]
      omega
    rw [List.getD_eq_getElem _ _ hclen, List.getElem_map, List.getElem_take, List.getElem_drop]
    rw [Universe.cellAt, List.getD_eq_getElem u.cells Cell.Dead hidx]
    rfl
  refine ⟨(chunksOf u.width u.cells).map (fun line => line.map Cell.glyph), ?_, ?_, ?_, ?_, ?_, ?_⟩
  · unfold Universe.renderRows
    rw [if_neg hw0]
  · unfold Universe.render Universe.renderRows
    rw [if_neg hw0]
    rfl
  · rw [hch, List.map_map, List.length_map, List.length_range]
  · intro line hline
    rw [hch, List.map_map] at hline
    obtain ⟨r, hr, hle⟩ := List.mem_map.mp hline
    rw [List.mem_range] at hr
    subst hle
    show (((u.cells.drop (r * u.width)).take u.width).map Cell.glyph).length = u.width
    have h1 := Nat.mul_le_mul_right u.width (show r + 1 ≤ u.height from hr)
    rw [Nat.succ_mul] at h1
    rw [List.length_map, List.length_take, List.length_drop]
    have hle2 : u.width ≤ u.cells.length - r * u.width := by
      rw [hu]
      omega
    exact min_eq_left hle2
  · exact hglyph
  · intro r c hr hc
    rw [hglyph r c hr hc]
    cases u.cellAt (u.get_index r c) <;> decide

/-- Witness for C8 (amended): the rendering of the 5 x 5 blinker universe
has 5 lines of 5 glyphs, with the Alive glyph at the blinker cell (2, 1). -/
theorem render_is_row_major_glyph_grid_witness :
    ∃ rows, exBlinkH.renderRows = some rows ∧
      exBlinkH.render = some (String.join (rows.map (fun line => String.mk line ++ "\n"))) ∧
      rows.length = exBlinkH.height ∧
      (∀ line ∈ rows, line.length = exBlinkH.width) ∧
      (∀ r c, r < exBlinkH.height → c < exBlinkH.width →
        (rows.getD r []).getD c ' ' = Cell.glyph (exBlinkH.cellAt (exBlinkH.get_index r c))) ∧
      (∀ r c, r < exBlinkH.height → c < exBlinkH.width →
        ((rows.getD r []).getD c ' ' = '◼' ↔ exBlinkH.cellAt (exBlinkH.get_index r c) = Cell.Alive)) :=
  render_is_row_major_glyph_grid exBlinkH (by decide) (by decide)

/-- C10: for every Universe with width = 0, render() is not total: the
Display impl chunks the cell buffer with chunk size width, whose zero
value trips the chunk-size assertion (modeled as none), even though such
degenerate grids are otherwise valid states. -/
theorem render_none_of_width_zero (u : Universe) (hw : u.width = 0) :
    u.renderRows = none ∧ u.render = none := by
  unfold Universe.render Universe.renderRows
  rw [if_pos hw]
  exact ⟨rfl, rfl⟩

/-- Witness for C10: the valid zero-width universe of height 2. -/
theorem render_none_of_width_zero_witness :
    exZeroW.renderRows = none ∧ exZeroW.render = none :=
  render_none_of_width_zero exZeroW (by decide)

/-! ### Blinker patterns (C9) -/

/-- A universe whose cells are generated from a Boolean pattern on
(row, column), laid out row-major like the engine's buffer. -/
def patternUniverse (w h : Nat) (a : Nat → Nat → Bool) : Universe :=
  { width := w, height := h,
    cells := (List.range (w * h)).map
      (fun k => if a (k / w) (k % w) then Cell.Alive else Cell.Dead) }

/-- A horizontal 3-cell blinker: Alive exactly on row p+1, columns
q, q+1, q+2, inside a w x h universe that is Dead elsewhere. -/
def hBlinker (w h p q : Nat) : Universe :=
  patternUniverse w h (fun r c => r == p + 1 && (c == q || c == q + 1 || c == q + 2))

/-- A vertical 3-cell blinker: Alive exactly on column q+1, rows
p, p+1, p+2, inside a w x h universe that is Dead elsewhere. -/
def vBlinker (w h p q : Nat) : Universe :=
  patternUniverse w h (fun r c => (r == p || r == p + 1 || r == p + 2) && c == q + 1)

theorem patternUniverse_length (w h : Nat) (a : Nat → Nat → Bool) :
    (patternUniverse w h a).cells.length = w * h := by
  unfold patternUniverse
  rw [List.length_map, List.length_range]

theorem patternUniverse_inv (w h : Nat) (a : Nat → Nat → Bool) :
    (patternUniverse w h a).inv :=
  patternUniverse_length w h a

theorem patternUniverse_width (w h : Nat) (a : Nat → Nat → Bool) :
    (patternUniverse w h a).width = w := rfl

theorem patternUniverse_height (w h : Nat) (a : Nat → Nat → Bool) :
    (patternUniverse w h a).height = h := rfl

theorem patternUniverse_cellAt (w h : Nat) (a : Nat → Nat → Bool) (i j : Nat)
    (hi : i < h) (hj : j < w) :
    (patternUniverse w h a).cellAt (i * w + j) =
      if a i j then Cell.Alive else Cell.Dead := by
  have hidx : i * w + j < w * h := index_lt_of_lt hi hj
  unfold patternUniverse Universe.cellAt
  rw [List.getD_eq_getElem?_getD, List.getElem?_map, List.getElem?_range hidx]
  have hd := div_mod_of_between (a := i) (w := w) (j := i * w + j)
    (by omega) (by omega)
  have he : i * w + j - i * w = j := by omega
  show (if a ((i * w + j) / w) ((i * w + j) % w) then Cell.Alive else Cell.Dead) = _
  rw [hd.1, hd.2, he]

theorem patternUniverse_cellAt_toU8 (w h : Nat) (a : Nat → Nat → Bool) (i j : Nat)
    (hi : i < h) (hj : j < w) :
    ((patternUniverse w h a).cellAt (i * w + j)).toU8 =
      if a i j then 1 else 0 := by
  rw [patternUniverse_cellAt w h a i j hi hj]
  by_cases hx : a i j <;> simp [hx, Cell.toU8]

/-- The live-neighbour count of a pattern universe as the 8-term sum of
its pattern at the torus-wrapped neighbor positions. -/
theorem pattern_live_count (w h : Nat) (a : Nat → Nat → Bool) (i j : Nat)
    (hw : 2 ≤ w) (hh : 2 ≤ h) (hi : i < h) (hj : j < w) :
    (patternUniverse w h a).live_neighbour_count i j =
      (if a ((i + (h - 1)) % h) ((j + (w - 1)) % w) then 1 else 0) +
      (if a ((i + (h - 1)) % h) j then 1 else 0) +
      (if a ((i + (h - 1)) % h) ((j + 1) % w) then 1 else 0) +
      (if a i ((j + (w - 1)) % w) then 1 else 0) +
      (if a i ((j + 1) % w) then 1 else 0) +
      (if a ((i + 1) % h) ((j + (w - 1)) % w) then 1 else 0) +
      (if a ((i + 1) % h) j then 1 else 0) +
      (if a ((i + 1) % h) ((j + 1) % w) then 1 else 0) := by
  have hh0 : ¬(h - 1 = 0) := by omega
  have hw0 : ¬(w - 1 = 0) := by omega
  have hrow : i % h = i := Nat.mod_eq_of_lt hi
  have hcol : j % w = j := Nat.mod_eq_of_lt hj
  have hu : (i + (h - 1)) % h < h := Nat.mod_lt _ (by omega)
  have hd : (i + 1) % h < h := Nat.mod_lt _ (by omega)
  have hcu : (j + (w - 1)) % w < w := Nat.mod_lt _ (by omega)
  have hcd : (j + 1) % w < w := Nat.mod_lt _ (by omega)
  have t1 := patternUniverse_cellAt_toU8 w h a _ _ hu hcu
  have t2 := patternUniverse_cellAt_toU8 w h a _ _ hu hj
  have t3 := patternUniverse_cellAt_toU8 w h a _ _ hu hcd
  have t4 := patternUniverse_cellAt_toU8 w h a _ _ hi hcu
  have t5 := patternUniverse_cellAt_toU8 w h a _ _ hi hcd
  have t6 := patternUniverse_cellAt_toU8 w h a _ _ hd hcu
  have t7 := patternUniverse_cellAt_toU8 w h a _ _ hd hj
  have t8 := patternUniverse_cellAt_toU8 w h a _ _ hd hcd
  simp [Universe.live_neighbour_count, Universe.get_index,
    patternUniverse_width, patternUniverse_height,
    hh0, hw0, hrow, hcol, t1, t2, t3, t4, t5, t6, t7, t8]

/-- The unsigned wraparound decrement in if-form. -/
theorem up_eq {n i : Nat} (hi : i < n) :
    (i + (n - 1)) % n = if i = 0 then n - 1 else i - 1 := by
  split
  · rename_i h0
    subst h0
    rw [Nat.zero_add, Nat.mod_eq_of_lt (by omega)]
  · rename_i h0
    have he : i + (n - 1) = (i - 1) + n := by omega
    rw [he, Nat.add_mod_right, Nat.mod_eq_of_lt (by omega)]

/-- The wraparound increment in if-form. -/
theorem dn_eq {n i : Nat} (hi : i < n) :
    (i + 1) % n = if i + 1 = n then 0 else i + 1 := by
  split
  · rename_i h0
    rw [h0, Nat.mod_self]
  · exact Nat.mod_eq_of_lt (by omega)

/-- For a target cell away from both borders, the wrapped predecessor hits
it exactly from the unwrapped successor. -/
theorem wrap_pred_eq_iff {n t i : Nat} (hi : i < n) (ht1 : 1 ≤ t) (ht2 : t + 1 < n) :
    ((if i = 0 then n - 1 else i - 1) = t) ↔ i = t + 1 := by
  split <;> omega

/-- For a target cell away from both borders, the wrapped successor hits
it exactly from the unwrapped predecessor. -/
theorem wrap_succ_eq_iff {n t i : Nat} (hi : i < n) (ht1 : 1 ≤ t) (ht2 : t < n) :
    ((if i + 1 = n then 0 else i + 1) = t) ↔ i + 1 = t := by
  split <;> omega

set_option maxHeartbeats 3200000 in
/-- One tick of the Life rule takes each cell of the horizontal blinker
universe to the corresponding cell of the vertical blinker universe. -/
theorem hBlinker_step (w h p q i j : Nat) (hp : 1 ≤ p) (hp4 : p + 4 ≤ h)
    (hq : 1 ≤ q) (hq4 : q + 4 ≤ w) (hi : i < h) (hj : j < w) :
    next_cell ((hBlinker w h p q).cellAt ((hBlinker w h p q).get_index i j))
      ((hBlinker w h p q).live_neighbour_count i j) =
      (vBlinker w h p q).cellAt ((vBlinker w h p q).get_index i j) := by
  have hw2 : 2 ≤ w := by omega
  have hh2 : 2 ≤ h := by omega
  have r1 := wrap_pred_eq_iff (n := h) (t := p + 1) (i := i) hi (by omega) (by omega)
  have r2 := wrap_succ_eq_iff (n := h) (t := p + 1) (i := i) hi (by omega) (by omega)
  have c1 := wrap_pred_eq_iff (n := w) (t := q) (i := j) hj (by omega) (by omega)
  have c2 := wrap_pred_eq_iff (n := w) (t := q + 1) (i := j) hj (by omega) (by omega)
  have c3 := wrap_pred_eq_iff (n := w) (t := q + 2) (i := j) hj (by omega) (by omega)
  have c4 := wrap_succ_eq_iff (n := w) (t := q) (i := j) hj (by omega) (by omega)
  have c5 := wrap_succ_eq_iff (n := w) (t := q + 1) (i := j) hj (by omega) (by omega)
  have c6 := wrap_succ_eq_iff (n := w) (t := q + 2) (i := j) hj (by omega) (by omega)
  simp only [hBlinker, vBlinker, Universe.get_index, patternUniverse_width]
  rw [patternUniverse_cellAt w h _ i j hi hj, patternUniverse_cellAt w h _ i j hi hj]
  rw [pattern_live_count w h _ i j hw2 hh2 hi hj]
  rw [up_eq hi, dn_eq hi, up_eq hj, dn_eq hj]
  simp only [Bool.and_eq_true, Bool.or_eq_true, beq_iff_eq]
  simp only [r1, r2, c1, c2, c3, c4, c5, c6]
  split_ifs <;> first | omega | decide

set_option maxHeartbeats 3200000 in
/-- One tick of the Life rule takes each cell of the vertical blinker
universe back to the corresponding cell of the horizontal blinker
universe. -/
theorem vBlinker_step (w h p q i j : Nat) (hp : 1 ≤ p) (hp4 : p + 4 ≤ h)
    (hq : 1 ≤ q) (hq4 : q + 4 ≤ w) (hi : i < h) (hj : j < w) :
    next_cell ((vBlinker w h p q).cellAt ((vBlinker w h p q).get_index i j))
      ((vBlinker w h p q).live_neighbour_count i j) =
      (hBlinker w h p q).cellAt ((hBlinker w h p q).get_index i j) := by
  have hw2 : 2 ≤ w := by omega
  have hh2 : 2 ≤ h := by omega
  have rp1 := wrap_pred_eq_iff (n := h) (t := p) (i := i) hi (by omega) (by omega)
  have rp2 := wrap_pred_eq_iff (n := h) (t := p + 1) (i := i) hi (by omega) (by omega)
  have rp3 := wrap_pred_eq_iff (n := h) (t := p + 2) (i := i) hi (by omega) (by omega)
  have rs1 := wrap_succ_eq_iff (n := h) (t := p) (i := i) hi (by omega) (by omega)
  have rs2 := wrap_succ_eq_iff (n := h) (t := p + 1) (i := i) hi (by omega) (by omega)
  have rs3 := wrap_succ_eq_iff (n := h) (t := p + 2) (i := i) hi (by omega) (by omega)
  have cp := wrap_pred_eq_iff (n := w) (t := q + 1) (i := j) hj (by omega) (by omega)
  have cs := wrap_succ_eq_iff (n := w) (t := q + 1) (i := j) hj (by omega) (by omega)
  simp only [hBlinker, vBlinker, Universe.get_index, patternUniverse_width]
  rw [patternUniverse_cellAt w h _ i j hi hj, patternUniverse_cellAt w h _ i j hi hj]
  rw [pattern_live_count w h _ i j hw2 hh2 hi hj]
  rw [up_eq hi, dn_eq hi, up_eq hj, dn_eq hj]
  simp only [Bool.and_eq_true, Bool.or_eq_true, beq_iff_eq]
  simp only [rp1, rp2, rp3, rs1, rs2, rs3, cp, cs]
  split_ifs <;> first | omega | decide

/-- Structure extensionality for Universe. -/
theorem universe_ext {u v : Universe} (hw : u.width = v.width)
    (hh : u.height = v.height) (hc : u.cells = v.cells) : u = v := by
  cases u
  cases v
  cases hw
  cases hh
  cases hc
  rfl

/-- If the per-cell Life rule applied to u agrees pointwise with the cells
of v, then u.tick = v. -/
theorem tick_eq_of_pointwise (u v : Universe) (hu : u.inv) (hv : v.inv)
    (hw : u.width = v.width) (hh : u.height = v.height)
    (hpt : ∀ i j, i < u.height → j < u.width →
      next_cell (u.cellAt (u.get_index i j)) (u.live_neighbour_count i j) =
        v.cellAt (v.get_index i j)) :
    u.tick = v := by
  refine universe_ext ?_ ?_ ?_
  · exact hw
  · exact hh
  have hlen1 : u.tick.cells.length = u.width * u.height := by
    show (writeGrid u.width u.height _ u.cells).length = u.width * u.height
    rw [writeGrid_length, hu]
  have hlen : u.tick.cells.length = v.cells.length := by
    rw [hlen1, hv, hw, hh]
  apply List.ext_getElem hlen
  intro n h1 h2
  rw [hlen1] at h1
  have hw0 : 0 < u.width := by
    rcases Nat.eq_zero_or_pos u.width with h0 | h0
    · rw [h0] at h1
      omega
    · exact h0
  have hcm0 : u.width * u.height = u.height * u.width := Nat.mul_comm _ _
  have hi : n / u.width < u.height := by
    rw [Nat.div_lt_iff_lt_mul hw0]
    omega
  have hj : n % u.width < u.width := Nat.mod_lt _ hw0
  have hmain := writeGrid_getElem? u.width u.height
    (fun row col =>
      let idx := u.get_index row col
      next_cell (u.cellAt idx) (u.live_neighbour_count row col))
    u.cells hu n
  rw [if_pos h1] at hmain
  have htick : u.tick.cells[n]? = some (next_cell
      (u.cellAt (u.get_index (n / u.width) (n % u.width)))
      (u.live_neighbour_count (n / u.width) (n % u.width))) := by
    show (writeGrid u.width u.height _ u.cells)[n]? = _
    rw [hmain]
  have hvn : v.cells[n]? = some (v.cellAt (v.get_index (n / u.width) (n % u.width))) := by
    have hcm : n / u.width * u.width = u.width * (n / u.width) := Nat.mul_comm _ _
    have hdm := Nat.div_add_mod n u.width
    have hnv : v.get_index (n / u.width) (n % u.width) = n := by
      show n / u.width * v.width + n % u.width = n
      rw [← hw]
      omega
    rw [Universe.cellAt, hnv, List.getD_eq_getElem v.cells Cell.Dead h2,
      List.getElem?_eq_getElem h2]
  have hfin : u.tick.cells[n]? = v.cells[n]? := by
    rw [htick, hvn, hpt (n / u.width) (n % u.width) hi hj]
  have h1t : n < u.tick.cells.length := by
    rw [hlen1]
    exact h1
  rw [List.getElem?_eq_getElem h1t, List.getElem?_eq_getElem h2] at hfin
  exact Option.some.inj hfin

/-- C9: for every grid size and every blinker placement whose 3 x 3
bounding box keeps at least one Dead ring away from the torus seam
(so no wraparound interaction occurs), the horizontal 3-cell Alive row
becomes the vertical 3-cell Alive column after one tick and returns to
the original horizontal row after a second tick: period 2. -/
theorem blinker_oscillates_period_two (w h p q : Nat)
    (hp : 1 ≤ p) (hp4 : p + 4 ≤ h) (hq : 1 ≤ q) (hq4 : q + 4 ≤ w) :
    (hBlinker w h p q).tick = vBlinker w h p q ∧
    (vBlinker w h p q).tick = hBlinker w h p q ∧
    (hBlinker w h p q).tick.tick = hBlinker w h p q := by
  have hBi : (hBlinker w h p q).inv := patternUniverse_inv w h _
  have hVi : (vBlinker w h p q).inv := patternUniverse_inv w h _
  have h1 : (hBlinker w h p q).tick = vBlinker w h p q := by
    refine tick_eq_of_pointwise _ _ hBi hVi rfl rfl ?_
    intro i j hi hj
    exact hBlinker_step w h p q i j hp hp4 hq hq4 hi hj
  have h2 : (vBlinker w h p q).tick = hBlinker w h p q := by
    refine tick_eq_of_pointwise _ _ hVi hBi rfl rfl ?_
    intro i j hi hj
    exact vBlinker_step w h p q i j hp hp4 hq hq4 hi hj
  refine ⟨h1, h2, ?_⟩
  rw [h1, h2]

/-- Witness for C9: the canonical blinker centered in the 5 x 5 universe. -/
theorem blinker_oscillates_period_two_witness :
    (hBlinker 5 5 1 1).tick = vBlinker 5 5 1 1 ∧
    (vBlinker 5 5 1 1).tick = hBlinker 5 5 1 1 ∧
    (hBlinker 5 5 1 1).tick.tick = hBlinker 5 5 1 1 :=
  blinker_oscillates_period_two 5 5 1 1 (by decide) (by decide) (by decide) (by decide)

end Gol
